import Mathlib

/-!
Verification of the multi-agent orchestrator blueprint
(`blueprints/python/multi-agent-orchestrator/agent_executor.py`).

Shallow embedding conventions:
* The framework event queue is modelled as an accumulated `List Event`:
  `enqueue_event` becomes list `cons`/append, in emission order.
* A Python exception is modelled as `Except.error` carrying the string
  rendering `str(e)` of the exception.
* A sub-agent invocation (`client.execute_task(instruction)`, an async
  stream that either finishes normally or raises after yielding some
  events) is modelled by a behaviour function giving, per agent name and
  instruction, the list of events yielded (and forwarded by
  `SubAgent.execute_task`) together with the outcome.
* `self.sub_agents` is a Python `dict` (insertion ordered); it is
  modelled by the ordered list of its keys where only the names matter,
  and by an association list where the stored values matter.
-/

/-- States of the `a2a` `ExecutionState` enum used by the blueprint. -/
inductive ExecutionState where
  | THINKING
  | RUNNING
  | COMPLETED
  | FAILED
  | CANCELLED
deriving DecidableEq, Repr

/-- A state is terminal when it is COMPLETED, FAILED or CANCELLED. -/
def ExecutionState.isTerminalState : ExecutionState → Bool
  | .COMPLETED => true
  | .FAILED => true
  | .CANCELLED => true
  | _ => false

/-- Events enqueued on the execution event queue:
`AgentExecutionStateEvent(state, description)` and
`AgentExecutionTextEvent(text)`. -/
inductive Event where
  | state (s : ExecutionState) (description : String)
  | text (t : String)
deriving DecidableEq, Repr

/-- An event is a terminal Status event when it is a state event whose
state is COMPLETED, FAILED or CANCELLED. -/
def Event.isTerminal : Event → Bool
  | .state s _ => s.isTerminalState
  | .text _ => false

/-- The `A2AClient` connection object: constructed from the agent's URL
(`A2AClient(self.url)`). -/
structure A2AClient where
  url : String
deriving DecidableEq, Repr

/-- `SubAgent`: name, url, description, and the lazily created client
stored in `self._client` (initially `None`). -/
structure SubAgent where
  name : String
  url : String
  description : String := ""
  client : Option A2AClient := none
deriving DecidableEq, Repr

/-- `SubAgent.get_client`: if `self._client is None`, construct
`A2AClient(self.url)` and store it; return the stored client.  The
returned pair is (updated agent state, returned client). -/
def SubAgent.get_client (self : SubAgent) : SubAgent × A2AClient :=
  match self.client with
  | none =>
      let c : A2AClient := ⟨self.url⟩
      ({ self with client := some c }, c)
  | some c => (self, c)

/-- Behaviour of a client's `execute_task(instruction)` stream: the
events it yields before finishing, and whether it finishes normally or
raises (with the exception's string rendering). -/
def ClientBehavior : Type :=
  A2AClient → String → List Event × Except String Unit

/-- `SubAgent.execute_task`: obtain the client via `get_client`, iterate
the client's event stream forwarding every yielded event to the queue,
then return `True`.  If the stream raises, the events yielded so far
have been forwarded and the exception propagates.  Result: (updated
agent state, forwarded events, outcome). -/
def SubAgent.execute_task (behavior : ClientBehavior) (self : SubAgent)
    (instruction : String) : SubAgent × List Event × Except String Bool :=
  let p := self.get_client
  let r := behavior p.2 instruction
  match r.2 with
  | .ok _ => (p.1, r.1, .ok true)
  | .error e => (p.1, r.1, .error e)

/-- C8: calling `SubAgent.get_client` twice opens no second connection:
the first call stores the constructed client, and the second call
returns exactly that memoized stored client with the agent state
unchanged — `get_client` is idempotent. -/
theorem get_client_idempotent (a : SubAgent) :
    (a.get_client.1).client = some a.get_client.2 ∧
    (a.get_client.1).get_client = a.get_client := by
  cases h : a.client with
  | none => simp [SubAgent.get_client, h]
  | some c => simp [SubAgent.get_client, h]

/-- C9 counterexample: a call through the handle's connection fails, yet
the memoized connection object is NOT invalidated: after a failing
`execute_task` on a fresh handle the stored client is still the
constructed one, not `None`. -/
theorem execute_task_failure_keeps_client_counterexample :
    (SubAgent.execute_task (fun _ _ => ([], .error "boom"))
        ⟨"worker", "http://w", "", none⟩ "do it").2.2 = .error "boom" ∧
    (SubAgent.execute_task (fun _ _ => ([], .error "boom"))
        ⟨"worker", "http://w", "", none⟩ "do it").1.client =
      some ⟨"http://w"⟩ := by
  constructor <;> rfl

/-- C9 amended: when a call through the handle's connection fails, the
memoized connection object is kept, not invalidated: the agent state
after `execute_task` still stores exactly the client that `get_client`
produced, so the next `get_client` returns that same memoized client
instead of re-establishing a fresh connection. -/
theorem execute_task_never_invalidates_client (b : ClientBehavior)
    (a : SubAgent) (instr e : String)
    (h : (a.execute_task b instr).2.2 = .error e) :
    (a.execute_task b instr).1.client = some a.get_client.2 := by
  unfold SubAgent.execute_task at *
  cases hr : (b a.get_client.2 instr).2 with
  | ok u => simp [hr] at h
  | error e' =>
      simp [hr]
      exact (get_client_idempotent a).1

/-- C9 amended witness: concrete failing call on a fresh handle keeps
the memoized client. -/
theorem execute_task_never_invalidates_client_witness :
    (SubAgent.execute_task (fun _ _ => ([Event.text "t"], .error "down"))
        ⟨"w", "u", "", none⟩ "i").1.client =
      some (SubAgent.get_client ⟨"w", "u", "", none⟩).2 :=
  execute_task_never_invalidates_client
    (fun _ _ => ([Event.text "t"], .error "down"))
    ⟨"w", "u", "", none⟩ "i" "down" rfl

/-- Behaviour of one worker invocation as seen by the orchestration
strategies (`agent.execute_task(instruction, event_queue)`): per agent
name and instruction, the events forwarded into the orchestrator's
queue and the outcome (normal completion or a propagating exception,
rendered as a string). -/
def WorkerBehavior : Type :=
  String → String → List Event × Except String Unit

/-- `OrchestratorExecutor._build_instruction_for_agent`: the blueprint
simply returns the original message (the previous results are available
but unused by the default body). -/
def build_instruction_for_agent (agent_name : String)
    (original_message : String)
    (previous_results : List (String × String)) : String :=
  original_message

/-- `OrchestratorExecutor._synthesize_results`: describe which agents
ran, in the insertion order of the result map. -/
def synthesize_results (results : List (String × String)) : String :=
  "Orchestration completed. Agents executed: " ++
    String.intercalate ", " (results.map Prod.fst)

/-- One instruction-build call recorded during sequential
orchestration: the agent it was built for, the keys of the result map
at build time, and the instruction produced. -/
structure SeqStep where
  agent : String
  priorKeys : List String
  instruction : String
deriving DecidableEq, Repr

/-- Result of the sequential loop: events enqueued, the recorded
instruction-build calls (in order), and the loop's outcome. -/
structure SeqOutcome where
  events : List Event
  steps : List SeqStep
  result : Except String String
deriving Repr

/-- Loop body of `OrchestratorExecutor._sequential_orchestration`: for
each agent in declared order, enqueue the delegation banner, build the
instruction from the accumulated `results` map, execute the agent
(forwarding its events), then store `results[agent_name] = "completed"`.
A propagating exception aborts the loop; after the loop the final
answer is synthesized from the result map.  The `steps` field is a
proof-side trace of the instruction-build calls. -/
def seqLoop (behavior : WorkerBehavior) (user_message : String) :
    List String → List (String × String) → SeqOutcome
  | [], results => ⟨[], [], .ok (synthesize_results results)⟩
  | agent_name :: rest, results =>
      let banner := Event.text ("\n--- Delegating to " ++ agent_name ++ " ---\n")
      let instruction :=
        build_instruction_for_agent agent_name user_message results
      let step : SeqStep := ⟨agent_name, results.map Prod.fst, instruction⟩
      let r := behavior agent_name instruction
      match r.2 with
      | .error e => ⟨banner :: r.1, [step], .error e⟩
      | .ok _ =>
          let next :=
            seqLoop behavior user_message rest
              (results ++ [(agent_name, "completed")])
          ⟨banner :: (r.1 ++ next.events), step :: next.steps, next.result⟩

/-- `OrchestratorExecutor._sequential_orchestration` over the declared
(insertion-ordered) agent names, starting from the empty result map. -/
def sequential_orchestration (behavior : WorkerBehavior)
    (sub_agents : List String) (user_message : String) :
    List Event × Except String String :=
  let o := seqLoop behavior user_message sub_agents []
  (o.events, o.result)

/-- `OrchestratorExecutor._orchestrate_task`: the blueprint dispatches
to the sequential pattern. -/
def orchestrate_task (behavior : WorkerBehavior)
    (sub_agents : List String) (user_message : String) :
    List Event × Except String String :=
  sequential_orchestration behavior sub_agents user_message

/-- The THINKING event `execute` enqueues before the try block. -/
def thinkingEvent : Event :=
  Event.state .THINKING "Analyzing task and planning agent coordination..."

/-- The try/except body of `OrchestratorExecutor.execute` around a
strategy outcome: on success enqueue the final text then COMPLETED; on
an exception enqueue FAILED with the rendered error. -/
def facade (strategy : List Event × Except String String) : List Event :=
  match strategy.2 with
  | .ok result =>
      thinkingEvent :: (strategy.1 ++
        [Event.text result,
         Event.state .COMPLETED "All sub-agents completed successfully!"])
  | .error e =>
      thinkingEvent :: (strategy.1 ++
        [Event.state .FAILED ("Orchestration failed: " ++ e)])

/-- `OrchestratorExecutor.execute`: the full event stream of one
coordination run (including events forwarded from sub-agents). -/
def execute (behavior : WorkerBehavior) (sub_agents : List String)
    (task_instruction : String) : List Event :=
  facade (orchestrate_task behavior sub_agents task_instruction)

/-- Streams produced by the facade: a THINKING event, then non-terminal
events, then one terminal event, have that terminal event as last event
and as the only event surviving the terminal filter. -/
theorem terminal_stream_spec (l : List Event) (e : Event)
    (hl : ∀ x ∈ l, x.isTerminal = false) (he : e.isTerminal = true) :
    (thinkingEvent :: (l ++ [e])).getLast? = some e ∧
    (thinkingEvent :: (l ++ [e])).filter Event.isTerminal = [e] := by
  constructor
  · rw [← List.cons_append]
    exact List.getLast?_concat _
  · have ht : thinkingEvent.isTerminal = false := rfl
    have h1 : l.filter Event.isTerminal = [] := by
      rw [List.filter_eq_nil_iff]
      intro a ha
      simp [hl a ha]
    simp [List.filter_cons, ht, List.filter_append, h1, he]

/-- C2: any exception raised inside the orchestration strategy during
`execute` is absorbed at the facade boundary: `execute` returns the run
stream (instead of re-raising), and that stream ends with a Status
FAILED event whose description is the human-readable rendering
`"Orchestration failed: " ++ e` of the error. -/
theorem execute_absorbs_strategy_failure (b : WorkerBehavior)
    (sub_agents : List String) (task e : String)
    (h : (orchestrate_task b sub_agents task).2 = .error e) :
    execute b sub_agents task =
      thinkingEvent :: ((orchestrate_task b sub_agents task).1 ++
        [Event.state .FAILED ("Orchestration failed: " ++ e)]) ∧
    (execute b sub_agents task).getLast? =
      some (Event.state .FAILED ("Orchestration failed: " ++ e)) := by
  have hex : execute b sub_agents task =
      thinkingEvent :: ((orchestrate_task b sub_agents task).1 ++
        [Event.state .FAILED ("Orchestration failed: " ++ e)]) := by
    unfold execute facade
    rw [h]
  refine ⟨hex, ?_⟩
  rw [hex, ← List.cons_append]
  exact List.getLast?_concat _

/-- C2 witness: a concrete run whose only worker raises "bad" ends with
the FAILED event rendering that error. -/
theorem execute_absorbs_strategy_failure_witness :
    execute (fun _ _ => ([], .error "bad")) ["w"] "t" =
      thinkingEvent ::
        ((orchestrate_task (fun _ _ => ([], .error "bad")) ["w"] "t").1 ++
          [Event.state .FAILED ("Orchestration failed: " ++ "bad")]) ∧
    (execute (fun _ _ => ([], .error "bad")) ["w"] "t").getLast? =
      some (Event.state .FAILED ("Orchestration failed: " ++ "bad")) :=
  execute_absorbs_strategy_failure (fun _ _ => ([], .error "bad")) ["w"] "t"
    "bad" rfl

/-- Events enqueued by the sequential loop are delegation banners and
events forwarded from sub-agents; when no forwarded event is terminal,
none of them is terminal. -/
theorem seqLoop_events_nonterminal (b : WorkerBehavior) (msg : String)
    (hb : ∀ name instr ev, ev ∈ (b name instr).1 → ev.isTerminal = false) :
    ∀ (agents : List String) (acc : List (String × String)),
      ∀ ev ∈ (seqLoop b msg agents acc).events, ev.isTerminal = false := by
  intro agents
  induction agents with
  | nil =>
      intro acc ev h
      simp [seqLoop] at h
  | cons a rest ih =>
      intro acc ev h
      unfold seqLoop at h
      cases hr : (b a (build_instruction_for_agent a msg acc)).2 with
      | error e =>
          simp only [hr] at h
          simp only [List.mem_cons] at h
          rcases h with h | h
          · subst h; rfl
          · exact hb a _ ev h
      | ok u =>
          simp only [hr] at h
          simp only [List.mem_cons, List.mem_append] at h
          rcases h with h | h | h
          · subst h; rfl
          · exact hb a _ ev h
          · exact ih _ ev h

/-- C1 counterexample: a sub-agent's forwarded stream may itself contain
a terminal Status event (as real sub-agents emit COMPLETED), and
`execute` forwards it unfiltered, so the run's stream contains two
terminal Status events, refuting "exactly one terminal Status event". -/
theorem execute_forwarded_terminal_counterexample :
    ((execute (fun _ _ => ([Event.state .COMPLETED "sub-agent done"], .ok ()))
        ["w"] "t").filter Event.isTerminal).length = 2 := by
  rfl

/-- C1 amended: `execute` itself emits exactly one terminal Status event
(COMPLETED or FAILED) and places it last; since sub-agent events are
forwarded unfiltered, under the assumption that no forwarded sub-agent
event is itself terminal, the run's full stream contains exactly one
terminal Status event and it is the last event of the stream. -/
theorem execute_unique_terminal_of_no_forwarded_terminal
    (b : WorkerBehavior) (sub_agents : List String) (task : String)
    (hb : ∀ name instr ev, ev ∈ (b name instr).1 → ev.isTerminal = false) :
    ∃ e : Event, e.isTerminal = true ∧
      (execute b sub_agents task).getLast? = some e ∧
      (execute b sub_agents task).filter Event.isTerminal = [e] := by
  have hev : ∀ ev ∈ (orchestrate_task b sub_agents task).1,
      ev.isTerminal = false := by
    intro ev h
    exact seqLoop_events_nonterminal b task hb sub_agents [] ev h
  cases hres : (orchestrate_task b sub_agents task).2 with
  | ok r =>
      refine ⟨Event.state .COMPLETED "All sub-agents completed successfully!",
        rfl, ?_⟩
      have hx : execute b sub_agents task =
          thinkingEvent ::
            (((orchestrate_task b sub_agents task).1 ++ [Event.text r]) ++
              [Event.state .COMPLETED "All sub-agents completed successfully!"]) := by
        unfold execute facade
        rw [hres]
        simp [List.append_assoc]
      rw [hx]
      have hl : ∀ x ∈ (orchestrate_task b sub_agents task).1 ++ [Event.text r],
          x.isTerminal = false := by
        intro x hxm
        rcases List.mem_append.mp hxm with h1 | h2
        · exact hev x h1
        · simp only [List.mem_singleton] at h2
          subst h2; rfl
      exact terminal_stream_spec _ _ hl rfl
  | error e =>
      refine ⟨Event.state .FAILED ("Orchestration failed: " ++ e), rfl, ?_⟩
      have hx : execute b sub_agents task =
          thinkingEvent :: ((orchestrate_task b sub_agents task).1 ++
            [Event.state .FAILED ("Orchestration failed: " ++ e)]) := by
        unfold execute facade
        rw [hres]
      rw [hx]
      exact terminal_stream_spec _ _ hev rfl

/-- C1 amended witness: a concrete run whose sub-agent forwards only a
non-terminal Text event has exactly one terminal event, placed last. -/
theorem execute_unique_terminal_witness :
    ∃ e : Event, e.isTerminal = true ∧
      (execute (fun _ _ => ([Event.text "hello"], .ok ())) ["w"] "t").getLast? =
        some e ∧
      (execute (fun _ _ => ([Event.text "hello"], .ok ())) ["w"] "t").filter
          Event.isTerminal = [e] :=
  execute_unique_terminal_of_no_forwarded_terminal
    (fun _ _ => ([Event.text "hello"], .ok ())) ["w"] "t"
    (by
      intro name instr ev h
      simp only [List.mem_singleton] at h
      subst h; rfl)

/-- Characterization of the instruction-build trace of the sequential
loop: the i-th build call (when it happens) is for the i-th declared
agent, sees a result map whose keys are the accumulator's keys followed
by the first i agents of the remaining list, and produces the
instruction built from exactly that map. -/
theorem seqLoop_steps_get? (b : WorkerBehavior) (msg : String) :
    ∀ (agents : List String) (acc : List (String × String)) (i : Nat)
      (s : SeqStep), (seqLoop b msg agents acc).steps[i]? = some s →
      agents[i]? = some s.agent ∧
      s.priorKeys = acc.map Prod.fst ++ agents.take i ∧
      s.instruction = build_instruction_for_agent s.agent msg
        (acc ++ (agents.take i).map (fun a => (a, "completed"))) := by
  intro agents
  induction agents with
  | nil =>
      intro acc i s h
      simp [seqLoop] at h
  | cons a rest ih =>
      intro acc i s h
      unfold seqLoop at h
      cases hr : (b a (build_instruction_for_agent a msg acc)).2 with
      | error e =>
          simp only [hr] at h
          cases i with
          | zero =>
              simp only [List.getElem?_cons_zero, Option.some.injEq] at h
              subst h
              refine ⟨by simp, by simp, by simp [build_instruction_for_agent]⟩
          | succ j =>
              simp at h
      | ok u =>
          simp only [hr] at h
          cases i with
          | zero =>
              simp only [List.getElem?_cons_zero, Option.some.injEq] at h
              subst h
              refine ⟨by simp, by simp, by simp [build_instruction_for_agent]⟩
          | succ j =>
              simp only [List.getElem?_cons_succ] at h
              obtain ⟨h1, h2, h3⟩ := ih (acc ++ [(a, "completed")]) j s h
              refine ⟨by simpa using h1, ?_, ?_⟩
              · rw [h2]
                simp [List.take_succ_cons, List.append_assoc]
              · simp only [build_instruction_for_agent] at h3 ⊢
                exact h3

/-- C3: in SEQUENTIAL mode the instruction for the worker at position i
(0-based) is built by `build_instruction_for_agent` from the original
task and a result map whose keys are exactly the workers at the earlier
positions (`sub_agents.take i`), each mapped to its stored output; when
the declared workers are distinct, the map has no entry for worker i
itself (nor, a fortiori, for any later worker). -/
theorem sequential_instruction_uses_exactly_prior_results
    (b : WorkerBehavior) (sub_agents : List String) (msg : String)
    (i : Nat) (s : SeqStep)
    (hstep : (seqLoop b msg sub_agents []).steps[i]? = some s) :
    sub_agents[i]? = some s.agent ∧
    s.priorKeys = sub_agents.take i ∧
    s.instruction = build_instruction_for_agent s.agent msg
      ((sub_agents.take i).map (fun a => (a, "completed"))) ∧
    (sub_agents.Nodup → s.agent ∉ s.priorKeys) := by
  obtain ⟨h1, h2, h3⟩ := seqLoop_steps_get? b msg sub_agents [] i s hstep
  simp only [List.map_nil, List.nil_append] at h2 h3
  refine ⟨h1, h2, h3, ?_⟩
  intro hnd hmem
  rw [h2] at hmem
  obtain ⟨j, hj⟩ := List.mem_iff_getElem?.mp hmem
  have hjlen : j < (sub_agents.take i).length := (List.getElem?_eq_some.mp hj).1
  have hji : j < i := lt_of_lt_of_le hjlen (by simp [List.length_take])
  have hj' : sub_agents[j]? = some s.agent := by
    rw [← List.getElem?_take_of_lt hji]
    exact hj
  have hij : i < sub_agents.length := (List.getElem?_eq_some.mp h1).1
  have hje : j = i :=
    List.getElem?_inj (lt_trans hji hij) hnd (hj'.trans h1.symm)
  omega

/-- C3 witness: with three declared workers, the build call at position
2 sees exactly the first two workers' entries. -/
theorem sequential_instruction_witness :
    (["a", "b", "c"] : List String)[2]? =
      some (SeqStep.agent ⟨"c", ["a", "b"], "t"⟩) ∧
    SeqStep.priorKeys ⟨"c", ["a", "b"], "t"⟩ = (["a", "b", "c"] : List String).take 2 ∧
    SeqStep.instruction ⟨"c", ["a", "b"], "t"⟩ =
      build_instruction_for_agent (SeqStep.agent ⟨"c", ["a", "b"], "t"⟩) "t"
        (((["a", "b", "c"] : List String).take 2).map (fun a => (a, "completed"))) ∧
    ((["a", "b", "c"] : List String).Nodup →
      SeqStep.agent ⟨"c", ["a", "b"], "t"⟩ ∉ SeqStep.priorKeys ⟨"c", ["a", "b"], "t"⟩) :=
  sequential_instruction_uses_exactly_prior_results
    (fun _ _ => ([], .ok ())) ["a", "b", "c"] "t" 2 ⟨"c", ["a", "b"], "t"⟩ rfl

/-- The sequential loop's successful final answer is synthesized from
the accumulated result map extended with one "completed" entry per
remaining agent, regardless of the worker behaviour. -/
theorem seqLoop_result_ok (b : WorkerBehavior) (msg : String) :
    ∀ (agents : List String) (acc : List (String × String)) (r : String),
      (seqLoop b msg agents acc).result = .ok r →
      r = synthesize_results (acc ++ agents.map (fun a => (a, "completed"))) := by
  intro agents
  induction agents with
  | nil =>
      intro acc r h
      simp only [seqLoop, Except.ok.injEq] at h
      rw [← h]
      simp
  | cons a rest ih =>
      intro acc r h
      unfold seqLoop at h
      cases hr : (b a (build_instruction_for_agent a msg acc)).2 with
      | error e =>
          simp [hr] at h
      | ok u =>
          simp only [hr] at h
          have he := ih (acc ++ [(a, "completed")]) r h
          rw [he]
          simp [List.append_assoc]

/-- C10: in SEQUENTIAL mode the final answer is independent of the
workers' actual outputs: two runs over the same declared worker set, in
which every worker invocation completes, return the identical string
listing the declared worker names in order — whatever the (possibly
different) behaviours and tasks were. -/
theorem sequential_final_answer_output_independent
    (b1 b2 : WorkerBehavior) (sub_agents : List String)
    (msg1 msg2 r1 r2 : String)
    (h1 : (sequential_orchestration b1 sub_agents msg1).2 = .ok r1)
    (h2 : (sequential_orchestration b2 sub_agents msg2).2 = .ok r2) :
    r1 = r2 ∧
    r1 = "Orchestration completed. Agents executed: " ++
      String.intercalate ", " sub_agents := by
  have e1 := seqLoop_result_ok b1 msg1 sub_agents [] r1 h1
  have e2 := seqLoop_result_ok b2 msg2 sub_agents [] r2 h2
  have hs : synthesize_results
      (([] : List (String × String)) ++ sub_agents.map (fun a => (a, "completed"))) =
      "Orchestration completed. Agents executed: " ++
        String.intercalate ", " sub_agents := by
    simp [synthesize_results, List.map_map, Function.comp_def]
  exact ⟨by rw [e1, e2], by rw [e1, hs]⟩

/-- C10 witness: two concrete successful runs with different worker
outputs and different tasks return the same final answer. -/
theorem sequential_final_answer_witness :
    "Orchestration completed. Agents executed: a, b" =
      "Orchestration completed. Agents executed: a, b" ∧
    "Orchestration completed. Agents executed: a, b" =
      "Orchestration completed. Agents executed: " ++
        String.intercalate ", " ["a", "b"] :=
  sequential_final_answer_output_independent
    (fun n _ => ([Event.text ("output of " ++ n)], .ok ()))
    (fun _ _ => ([], .ok ())) ["a", "b"] "task one" "task two"
    "Orchestration completed. Agents executed: a, b"
    "Orchestration completed. Agents executed: a, b" rfl rfl

/-- `OrchestratorExecutor._parallel_orchestration`, step 1: launch one
invocation per declared agent with its independently built instruction
`f"{user_message} (handled by {agent_name})"`, and gather the outcome
of every launched invocation (`asyncio.gather(*tasks,
return_exceptions=True)`: one entry per launched task, exceptions
collected rather than short-circuiting). -/
def parallel_results (behavior : WorkerBehavior) (sub_agents : List String)
    (user_message : String) : List (List Event × Except String Unit) :=
  sub_agents.map (fun agent_name =>
    behavior agent_name (user_message ++ " (handled by " ++ agent_name ++ ")"))

/-- `errors = [r for r in results if isinstance(r, Exception)]`: the
errors of the failed workers, in declared order. -/
def parallel_errors (behavior : WorkerBehavior) (sub_agents : List String)
    (user_message : String) : List String :=
  (parallel_results behavior sub_agents user_message).filterMap
    (fun r => match r.2 with
      | .error e => some e
      | .ok _ => none)

/-- `OrchestratorExecutor._parallel_orchestration`: intro text event,
all forwarded events (the per-worker streams, determinized here as
concatenation in declared order — the source imposes no cross-worker
order), then `raise Exception(f"Some agents failed: {errors}")` if any
worker failed, else the success answer.  The raised message renders the
collected error list. -/
def parallel_orchestration (behavior : WorkerBehavior)
    (sub_agents : List String) (user_message : String) :
    List Event × Except String String :=
  let results := parallel_results behavior sub_agents user_message
  let evs := Event.text "Executing multiple agents in parallel...\n" ::
    (results.map Prod.fst).flatten
  let errors := parallel_errors behavior sub_agents user_message
  if errors.isEmpty then
    (evs, .ok "All agents completed successfully in parallel!")
  else
    (evs, .error ("Some agents failed: [" ++
      String.intercalate ", " errors ++ "]"))

/-- C4: in PARALLEL mode every launched worker invocation is finished
and inspected (the gathered outcome list has one entry per declared
worker), and if any worker fails, the run fails with the aggregate
error rendering the collected list of per-worker errors, which contains
the error of every failed worker — not just the first. -/
theorem parallel_collects_all_errors (b : WorkerBehavior)
    (sub_agents : List String) (msg name e : String)
    (hmem : name ∈ sub_agents)
    (hfail : (b name (msg ++ " (handled by " ++ name ++ ")")).2 = .error e) :
    (parallel_results b sub_agents msg).length = sub_agents.length ∧
    e ∈ parallel_errors b sub_agents msg ∧
    (parallel_orchestration b sub_agents msg).2 =
      .error ("Some agents failed: [" ++
        String.intercalate ", " (parallel_errors b sub_agents msg) ++ "]") := by
  have hlen : (parallel_results b sub_agents msg).length = sub_agents.length :=
    List.length_map _ _
  have hmem' : e ∈ parallel_errors b sub_agents msg := by
    rw [parallel_errors, List.mem_filterMap]
    refine ⟨b name (msg ++ " (handled by " ++ name ++ ")"), ?_, ?_⟩
    · exact List.mem_map_of_mem _ hmem
    · rw [hfail]
  refine ⟨hlen, hmem', ?_⟩
  have hne : (parallel_errors b sub_agents msg).isEmpty = false := by
    rw [List.isEmpty_eq_false]
    exact List.ne_nil_of_mem hmem'
  rw [parallel_orchestration]
  simp only [hne, Bool.false_eq_true, if_false]

/-- C4 witness: two workers that both fail produce a run failure whose
collected error list contains both errors. -/
theorem parallel_collects_all_errors_witness :
    (parallel_results (fun n _ => ([], .error ("err-" ++ n))) ["a", "b"] "t").length =
      (["a", "b"] : List String).length ∧
    "err-b" ∈ parallel_errors (fun n _ => ([], .error ("err-" ++ n))) ["a", "b"] "t" ∧
    (parallel_orchestration (fun n _ => ([], .error ("err-" ++ n))) ["a", "b"] "t").2 =
      .error ("Some agents failed: [" ++
        String.intercalate ", "
          (parallel_errors (fun n _ => ([], .error ("err-" ++ n))) ["a", "b"] "t") ++ "]") :=
  parallel_collects_all_errors (fun n _ => ([], .error ("err-" ++ n)))
    ["a", "b"] "t" "b" "err-b" (by simp) rfl

/-- `OrchestratorExecutor._is_result_satisfactory`: the blueprint always
iterates the maximum number of times (`return False`). -/
def is_result_satisfactory (result : String) : Bool :=
  false

/-- Events of one iterative round (`iteration` is the 0-based Python
loop variable): the iteration banner, the generator step text and the
critic step text.  The generator and critic agent invocations are TODO
placeholders in the source, so each round's pair consists of exactly
these two step events. -/
def iterRoundEvents (iteration : Nat) : List Event :=
  [Event.text ("\n--- Iteration " ++ toString (iteration + 1) ++ " ---\n"),
   Event.text "Generating...\n",
   Event.text "Reviewing...\n"]

/-- Loop of `OrchestratorExecutor._iterative_orchestration`:
`for iteration in range(max_iterations)` with an early `break` when the
result is satisfactory.  Returns the enqueued events and the number of
rounds executed (in Python, the final `iteration + 1` when at least one
round ran). -/
def iterLoop (current_result : String) (iteration : Nat) :
    Nat → List Event × Nat
  | 0 => ([], 0)
  | remaining + 1 =>
      let evs := iterRoundEvents iteration
      if is_result_satisfactory current_result then (evs, 1)
      else
        let next := iterLoop current_result (iteration + 1) remaining
        (evs ++ next.1, 1 + next.2)

/-- `OrchestratorExecutor._iterative_orchestration`: run up to
`max_iterations = 3` generator/critic rounds starting from
`current_result = user_message`, then report
`f"Completed after {iteration + 1} iterations"`. -/
def iterative_orchestration (user_message : String) :
    List Event × Except String String :=
  let r := iterLoop user_message 0 3
  (r.1, .ok ("Completed after " ++ toString r.2 ++ " iterations"))

/-- Streams of successful runs end with the COMPLETED terminal event. -/
theorem facade_ok_getLast? (l : List Event) (r : String) :
    (facade (l, .ok r)).getLast? =
      some (Event.state .COMPLETED "All sub-agents completed successfully!") := by
  show (thinkingEvent :: (l ++ [Event.text r,
      Event.state .COMPLETED "All sub-agents completed successfully!"])).getLast? = _
  rw [show l ++ [Event.text r,
      Event.state .COMPLETED "All sub-agents completed successfully!"] =
      (l ++ [Event.text r]) ++
        [Event.state .COMPLETED "All sub-agents completed successfully!"] by simp]
  rw [← List.cons_append]
  exact List.getLast?_concat _

/-- C5: with the maximum round count 3 and the never-true satisfaction
predicate, ITERATIVE mode performs exactly 3 generator+critic round
pairs (3 generator step events and 3 critic step events), returns the
completed answer reporting 3 iterations, and through the facade the run
ends with a COMPLETED (not FAILED) terminal event. -/
theorem iterative_three_rounds_best_effort (msg : String) :
    ((iterative_orchestration msg).1.filter
        (fun ev => ev == Event.text "Generating...\n")).length = 3 ∧
    ((iterative_orchestration msg).1.filter
        (fun ev => ev == Event.text "Reviewing...\n")).length = 3 ∧
    (iterative_orchestration msg).2 = .ok "Completed after 3 iterations" ∧
    (facade (iterative_orchestration msg)).getLast? =
      some (Event.state .COMPLETED "All sub-agents completed successfully!") := by
  have h : (iterLoop msg 0 3).2 = 3 := rfl
  refine ⟨rfl, rfl, ?_, ?_⟩
  · show (Except.ok ("Completed after " ++ toString (iterLoop msg 0 3).2 ++
        " iterations") : Except String String) = .ok "Completed after 3 iterations"
    rw [h]
    rfl
  · exact facade_ok_getLast? (iterLoop msg 0 3).1 _

/-- `OrchestratorExecutor._select_agents_for_task`: the blueprint
selects all configured agents (`list(self.sub_agents.keys())`). -/
def select_agents_for_task (sub_agents : List String)
    (user_message : String) : List String :=
  sub_agents

/-- `OrchestratorExecutor._should_stop_execution`: stop after the first
success (`len(results) >= 1`). -/
def should_stop_execution (results : List String) : Bool :=
  decide (1 ≤ results.length)

/-- Result of the conditional loop: events enqueued, the `results` list
of executed agent names, and the outcome. -/
structure CondOutcome where
  events : List Event
  executed : List String
  outcome : Except String Unit
deriving Repr

/-- Loop of `OrchestratorExecutor._conditional_orchestration` over the
selected agent names: skip names that are not configured; otherwise
enqueue the selection banner, execute the agent (forwarding its
events), append its name to `results`, and stop early when
`_should_stop_execution(results)` holds.  A propagating exception
aborts the loop. -/
def condLoop (behavior : WorkerBehavior) (sub_agents : List String)
    (user_message : String) : List String → List String → CondOutcome
  | [], results => ⟨[], results, .ok ()⟩
  | agent_name :: rest, results =>
      if agent_name ∈ sub_agents then
        let banner :=
          Event.text ("\n--- Selected " ++ agent_name ++ " for this task ---\n")
        let r := behavior agent_name user_message
        match r.2 with
        | .error e => ⟨banner :: r.1, results, .error e⟩
        | .ok _ =>
            let results' := results ++ [agent_name]
            if should_stop_execution results' then
              ⟨banner :: r.1, results', .ok ()⟩
            else
              let next := condLoop behavior sub_agents user_message rest results'
              ⟨banner :: (r.1 ++ next.events), next.executed, next.outcome⟩
      else condLoop behavior sub_agents user_message rest results

/-- `OrchestratorExecutor._conditional_orchestration`: select agents for
the task, run the conditional loop from an empty `results` list, and
answer `f"Executed agents: {', '.join(results)}"`. -/
def conditional_orchestration (behavior : WorkerBehavior)
    (sub_agents : List String) (user_message : String) :
    List Event × Except String String :=
  let selected := select_agents_for_task sub_agents user_message
  let o := condLoop behavior sub_agents user_message selected []
  match o.outcome with
  | .error e => (o.events, .error e)
  | .ok _ =>
      (o.events, .ok ("Executed agents: " ++
        String.intercalate ", " o.executed))

/-- C6: in ROUTED mode, when the routing function selects no workers,
the run invokes zero workers (no events, no executed agents) and
completes with the FinalAnswer listing zero executed agents rather than
failing. -/
theorem conditional_empty_selection_completes (b : WorkerBehavior)
    (sub_agents : List String) (msg : String)
    (hsel : select_agents_for_task sub_agents msg = []) :
    conditional_orchestration b sub_agents msg =
      ([], .ok "Executed agents: ") ∧
    (condLoop b sub_agents msg (select_agents_for_task sub_agents msg)
        []).executed = [] := by
  rw [conditional_orchestration, hsel]
  exact ⟨rfl, rfl⟩

/-- C6 witness: with no configured workers the default routing selects
the empty list and the run completes listing zero executed agents. -/
theorem conditional_empty_selection_witness :
    conditional_orchestration (fun _ _ => ([], .ok ())) [] "t" =
      ([], .ok "Executed agents: ") ∧
    (condLoop (fun _ _ => ([], .ok ())) [] "t"
        (select_agents_for_task [] "t") []).executed = [] :=
  conditional_empty_selection_completes (fun _ _ => ([], .ok ())) [] "t" rfl

/-- C7: in ROUTED mode with the default stopping predicate, for a
non-empty selection whose first name is a configured worker that
completes, exactly one worker is invoked: the loop's events are the
first worker's banner and forwarded events only, the executed list is
exactly that first worker, the stopping predicate evaluated after its
completion is true, and the run's answer lists only that worker. -/
theorem conditional_default_stop_after_first (b : WorkerBehavior)
    (name : String) (rest : List String) (sub_agents : List String)
    (msg : String)
    (hsel : select_agents_for_task sub_agents msg = name :: rest)
    (hmem : name ∈ sub_agents)
    (hok : (b name msg).2 = .ok ()) :
    condLoop b sub_agents msg (select_agents_for_task sub_agents msg) [] =
      ⟨Event.text ("\n--- Selected " ++ name ++ " for this task ---\n") ::
        (b name msg).1, [name], .ok ()⟩ ∧
    should_stop_execution [name] = true ∧
    (conditional_orchestration b sub_agents msg).2 =
      .ok ("Executed agents: " ++ name) := by
  have hloop : condLoop b sub_agents msg
      (select_agents_for_task sub_agents msg) [] =
      ⟨Event.text ("\n--- Selected " ++ name ++ " for this task ---\n") ::
        (b name msg).1, [name], .ok ()⟩ := by
    rw [hsel]
    unfold condLoop
    rw [if_pos hmem]
    simp [hok, should_stop_execution]
  refine ⟨hloop, rfl, ?_⟩
  rw [conditional_orchestration, hloop]
  rfl

/-- C7 witness: with two configured workers both able to complete, the
run invokes only the first and reports it alone. -/
theorem conditional_default_stop_witness :
    condLoop (fun n _ => ([Event.text ("from " ++ n)], .ok ())) ["a", "b"] "t"
        (select_agents_for_task ["a", "b"] "t") [] =
      ⟨Event.text ("\n--- Selected " ++ "a" ++ " for this task ---\n") ::
        ((fun (n : String) (_ : String) =>
          ([Event.text ("from " ++ n)], (.ok () : Except String Unit))) "a" "t").1,
        ["a"], .ok ()⟩ ∧
    should_stop_execution ["a"] = true ∧
    (conditional_orchestration
        (fun n _ => ([Event.text ("from " ++ n)], .ok ())) ["a", "b"] "t").2 =
      .ok ("Executed agents: " ++ "a") :=
  conditional_default_stop_after_first
    (fun n _ => ([Event.text ("from " ++ n)], .ok ())) "a" ["b"] ["a", "b"]
    "t" rfl (by simp) rfl
